import Mathlib

set_option linter.unusedVariables false

/-- Entry appended to a log sink: a terminal success line, a terminal failure line,
or a console record for a derived-image fetch attempt. -/
inductive LogEntry where
  | okLine (requestNum retryCount : Nat) (duration : Int)
  | failLine (requestNum retryCount : Nat) (duration : Int)
  | imgSaved (requestNum idx : Nat)
  | imgError (requestNum idx : Nat)
deriving Repr, DecidableEq

/-- Behavior of the endpoint for one invocation: for each retry index, whether the
HTTP attempt fails, how long the attempt takes, and the HTTP status on success. -/
structure AttemptEnv where
  fails : Nat → Bool
  attemptTime : Nat → Nat
  statusOf : Nat → Nat

/-- Behavior of the derived-image fetches performed after a successful image response:
how many images the response body references, and for each image index whether the
fetch fails and how long it takes. -/
structure ImageEnv where
  numImages : Nat
  fetchFails : Nat → Bool
  fetchTime : Nat → Nat

/-- Models the loop that downloads and saves each derived image referenced in a
successful response body. A failed fetch is recorded and swallowed; it never escapes
to the caller. Returns the clock after all fetches together with the console records.
The same loop appears in the single-gateway image script and the dual-gateway script. -/
def imageSideEffects (requestNum : Nat) (ie : ImageEnv) : Nat → Nat → Nat → Nat × List LogEntry
  | 0, _, now => (now, [])
  | remaining + 1, i, now =>
    let now1 := now + ie.fetchTime i
    let entry := if ie.fetchFails i then LogEntry.imgError requestNum (i + 1)
                 else LogEntry.imgSaved requestNum (i + 1)
    let rest := imageSideEffects requestNum ie remaining (i + 1) now1
    (rest.1, entry :: rest.2)

/-- Total wall time of the derived-image fetches starting at image index i. -/
def imageTimeFrom (ie : ImageEnv) : Nat → Nat → Nat
  | 0, _ => 0
  | remaining + 1, i => ie.fetchTime i + imageTimeFrom ie remaining (i + 1)

/-- Result of the config check and batch run of a script entry point. -/
structure MainOutcome where
  exitCode : Nat
  requestsIssued : Nat
  summaryWritten : Bool
  successes : Nat
  failures : Nat
  stderrLine : Option (List Char)
deriving Repr, DecidableEq

/-- Result of a prompt file read: the extracted value, or a thrown named error. -/
inductive ParseResult where
  | ok (value : List Char)
  | thrown (msg : List Char)
deriving Repr, DecidableEq

def imgKeyEq : List Char := "img_prompt=".data

def llmKeyEq : List Char := "llm_prompt=".data

def imgKeyName : List Char := "img_prompt".data

def llmKeyName : List Char := "llm_prompt".data

/-- Whether the key matches literally at the head of the suffix. -/
def matchesAt : List Char → List Char → Bool
  | [], _ => true
  | _ :: _, [] => false
  | k :: ks, c :: cs => k == c && matchesAt ks cs

/-- Suffix of the content after the first occurrence of the key, when the key occurs. -/
def afterFirst (key : List Char) : List Char → Option (List Char)
  | [] => if key = [] then some [] else none
  | c :: cs =>
    if matchesAt key (c :: cs) then some ((c :: cs).drop key.length)
    else afterFirst key cs

/-- Whitespace characters recognized by the regex escapes and by trim, restricted to
the ASCII whitespace that the prompt files contain. -/
def isJsSpace (c : Char) : Bool :=
  c == ' ' || c == '\t' || c == '\n' || c == '\r'

def dropLeadingWs : List Char → List Char
  | [] => []
  | c :: cs => if isJsSpace c then dropLeadingWs cs else c :: cs

/-- Removal of whitespace at both ends, as the trim call does. -/
def trimChars (s : List Char) : List Char :=
  (dropLeadingWs ((dropLeadingWs s).reverse)).reverse

/-- Leftmost position at which the key occurs followed, after optional whitespace, by
an equals sign; returns the suffix after that equals sign. This models the key part
of the dual-gateway regexes, which allow whitespace around the equals sign. -/
def findKeyEq (key : List Char) : List Char → Option (List Char)
  | [] => none
  | c :: cs =>
    if matchesAt key (c :: cs) then
      match dropLeadingWs ((c :: cs).drop key.length) with
      | '=' :: rest => some rest
      | _ => findKeyEq key cs
    else findKeyEq key cs

/-- Characters of the current line, up to the next newline or the end of input.
This models the dot-star capture of a multiline regex. -/
def takeLine : List Char → List Char
  | [] => []
  | c :: cs => if c = '\n' then [] else c :: takeLine cs

/-- Whether the suffix begins with a newline followed, after optional whitespace, by
the key: the lookahead used to stop a lazy capture at the next key. -/
def nlWsKey (key : List Char) : List Char → Bool
  | '\n' :: rest => matchesAt key (dropLeadingWs rest)
  | _ => false

/-- Characters captured lazily up to the earliest position where the lookahead for
the next key succeeds, or to the end of input when it never does. -/
def captureUntil (key : List Char) : List Char → List Char
  | [] => []
  | c :: cs => if nlWsKey key (c :: cs) then [] else c :: captureUntil key cs

namespace ImageStress

/-- RequestResult of src/scripts/livepeer/imageStressTest.ts. -/
structure RequestResult where
  success : Bool
  duration : Int
  retryCount : Nat
deriving Repr, DecidableEq

/-- Observable trace of one makeRequest invocation: the returned result, the number
of HTTP attempts performed, the lines appended to the log file, the console records
of the image side effects, and the clock at final resolution. -/
structure Trace where
  result : RequestResult
  attempts : Nat
  fileLog : List LogEntry
  imageLog : List LogEntry
  endTime : Nat
deriving Repr, DecidableEq

/-- Retry loop of makeRequest in src/scripts/livepeer/imageStressTest.ts. The start
time is taken anew at the top of every iteration, image side effects and a fixed one
second pause precede the end time on success, and on the final failed attempt the
loop breaks to the closing return whose duration field is the literal zero. -/
def go (env : AttemptEnv) (ie : ImageEnv) (maxRetries retryDelayMs requestNum : Nat) :
    Nat → Nat → Nat → Trace
  | 0, rc, now => ⟨⟨false, 0, rc - 1⟩, 0, [], [], now⟩
  | fuel + 1, rc, now =>
    let startTime := now
    let t1 := now + env.attemptTime rc
    if env.fails rc then
      if maxRetries < rc + 1 then
        ⟨⟨false, 0, rc + 1 - 1⟩, 1,
          [LogEntry.failLine requestNum (rc + 1 - 1) ((t1 : Int) - (startTime : Int))], [], t1⟩
      else
        let rest := go env ie maxRetries retryDelayMs requestNum fuel (rc + 1) (t1 + retryDelayMs)
        { rest with attempts := rest.attempts + 1 }
    else
      let img := imageSideEffects requestNum ie ie.numImages 0 t1
      let t3 := img.1 + 1000
      let dur : Int := (t3 : Int) - (startTime : Int)
      ⟨⟨true, dur, rc⟩, 1, [LogEntry.okLine requestNum rc dur], img.2, t3⟩

/-- makeRequest of src/scripts/livepeer/imageStressTest.ts. -/
def makeRequest (env : AttemptEnv) (ie : ImageEnv)
    (maxRetries retryDelayMs requestNum clock : Nat) : Trace :=
  go env ie maxRetries retryDelayMs requestNum (maxRetries + 1) 0 clock

/-- readPrompt of src/scripts/livepeer/imageStressTest.ts: the dotall regex anchors
its lazy capture at the end of input, so the value is everything after the first
img_prompt= to the end of the file, then trimmed. -/
def readPrompt (content : List Char) : ParseResult :=
  match afterFirst imgKeyEq content with
  | none => ParseResult.thrown ("Could not find img_prompt in prompts file".data)
  | some rest => ParseResult.ok (trimChars rest)

def successCount (rs : List RequestResult) : Nat := (rs.filter (fun r => r.success)).length

def failureCount (rs : List RequestResult) : Nat := (rs.filter (fun r => !r.success)).length

/-- The concurrent batch: totalRequests independent invocations launched together. -/
def runBatch (envs : Nat → AttemptEnv) (ies : Nat → ImageEnv)
    (maxRetries retryDelayMs n clock : Nat) : List Trace :=
  (List.range n).map (fun i => makeRequest (envs i) (ies i) maxRetries retryDelayMs (i + 1) clock)

/-- main of src/scripts/livepeer/imageStressTest.ts: missing gateway URL exits 1 on
stderr before any request; a thrown prompt error is caught by the closing catch and
the process still exits 0 with no summary; otherwise the batch runs, the summary is
appended and the process exits 0. -/
def main (gatewayUrl : Option (List Char)) (promptsFile : List Char)
    (envs : Nat → AttemptEnv) (ies : Nat → ImageEnv) (n retryDelayMs clock : Nat) : MainOutcome :=
  match gatewayUrl with
  | none => ⟨1, 0, false, 0, 0, some ("LIVEPEER_GATEWAY_URL environment variable not set".data)⟩
  | some _ =>
    match readPrompt promptsFile with
    | ParseResult.thrown _ => ⟨0, 0, false, 0, 0, none⟩
    | ParseResult.ok _ =>
      let results := (runBatch envs ies 3 retryDelayMs n clock).map (fun t => t.result)
      ⟨0, n, true, successCount results, failureCount results, none⟩

end ImageStress

namespace DualStress

/-- RequestResult of src/scripts/livepeer/dualStressTest.ts, including the optional
HTTP status that only the success path fills in. -/
structure RequestResult where
  success : Bool
  duration : Int
  retryCount : Nat
  status : Option Nat
deriving Repr, DecidableEq

/-- Observable trace of one makeRequest invocation of the dual-gateway script. -/
structure Trace where
  result : RequestResult
  attempts : Nat
  fileLog : List LogEntry
  imageLog : List LogEntry
  endTime : Nat
deriving Repr, DecidableEq

/-- Retry loop of makeRequest in src/scripts/livepeer/dualStressTest.ts. The start
time is taken once before the loop; an attempt at the retry ceiling is final and
breaks to the closing return whose duration field is the literal zero, while the
log line carries the measured duration. Image side effects run only for image calls. -/
def go (env : AttemptEnv) (ie : ImageEnv) (isImage : Bool)
    (maxRetries retryDelayMs requestNum startTime : Nat) :
    Nat → Nat → Nat → Trace
  | 0, rc, now => ⟨⟨false, 0, rc, none⟩, 0, [], [], now⟩
  | fuel + 1, rc, now =>
    let t1 := now + env.attemptTime rc
    if env.fails rc then
      if maxRetries ≤ rc then
        ⟨⟨false, 0, rc, none⟩, 1,
          [LogEntry.failLine requestNum rc ((t1 : Int) - (startTime : Int))], [], t1⟩
      else
        let rest := go env ie isImage maxRetries retryDelayMs requestNum startTime fuel
          (rc + 1) (t1 + retryDelayMs)
        { rest with attempts := rest.attempts + 1 }
    else
      let img := if isImage then imageSideEffects requestNum ie ie.numImages 0 t1 else (t1, [])
      let t3 := img.1 + 1000
      let dur : Int := (t3 : Int) - (startTime : Int)
      ⟨⟨true, dur, rc, some (env.statusOf rc)⟩, 1, [LogEntry.okLine requestNum rc dur], img.2, t3⟩

/-- makeRequest of src/scripts/livepeer/dualStressTest.ts. -/
def makeRequest (env : AttemptEnv) (ie : ImageEnv) (isImage : Bool)
    (maxRetries retryDelayMs requestNum clock : Nat) : Trace :=
  go env ie isImage maxRetries retryDelayMs requestNum clock (maxRetries + 1) 0 clock

/-- readImagePrompt of src/scripts/livepeer/dualStressTest.ts: a missing prompts file
throws, the multiline regex allows whitespace around the equals sign, and the greedy
capture stops at the end of the line. -/
def readImagePrompt (promptsFile : Option (List Char)) : ParseResult :=
  match promptsFile with
  | none => ParseResult.thrown ("Could not find prompts file for image prompt".data)
  | some content =>
    match findKeyEq imgKeyName content with
    | none => ParseResult.thrown ("Could not find img_prompt in prompts file".data)
    | some rest => ParseResult.ok (trimChars (takeLine (dropLeadingWs rest)))

/-- readLLMPrompt of src/scripts/livepeer/dualStressTest.ts: the dotall lazy capture
stops at the earliest newline followed by optional whitespace and img_prompt, or at
the end of input. -/
def readLLMPrompt (promptsFile : Option (List Char)) : ParseResult :=
  match promptsFile with
  | none => ParseResult.thrown ("Could not find prompts file for LLM prompt".data)
  | some content =>
    match findKeyEq llmKeyName content with
    | none => ParseResult.thrown ("Could not find llm_prompt in prompts file".data)
    | some rest => ParseResult.ok (trimChars (captureUntil imgKeyName (dropLeadingWs rest)))

/-- Mutable counter record per gateway and call type. -/
structure PairStats where
  success : Nat
  failure : Nat
  retries : Nat
  totalDuration : Int
  requests : Nat
deriving Repr, DecidableEq

/-- Stats update of the success path of makeRequest. -/
def statsOnSuccess (p : PairStats) (duration : Int) (retryCount : Nat) : PairStats :=
  { p with success := p.success + 1,
           totalDuration := p.totalDuration + duration,
           requests := p.requests + 1,
           retries := if 0 < retryCount then p.retries + retryCount else p.retries }

/-- Stats update of the final-failure path of makeRequest; the total duration is not
touched on failure. -/
def statsOnFailure (p : PairStats) (retryCount : Nat) : PairStats :=
  { p with failure := p.failure + 1,
           requests := p.requests + 1,
           retries := if 0 < retryCount then p.retries + retryCount else p.retries }

inductive GatewayId where
  | gw1
  | gw2
deriving Repr, DecidableEq

inductive CallType where
  | llm
  | image
deriving Repr, DecidableEq

/-- GatewayStats of src/scripts/livepeer/dualStressTest.ts. -/
structure GatewayStats where
  llm : PairStats
  image : PairStats
deriving Repr, DecidableEq

/-- The two global stats records, gateway1Stats and gateway2Stats. -/
structure AllStats where
  g1 : GatewayStats
  g2 : GatewayStats
deriving Repr, DecidableEq

/-- One terminal outcome together with the gateway and call type it belongs to. -/
structure TerminalEvent where
  gatewayId : GatewayId
  ctype : CallType
  success : Bool
  duration : Int
  retryCount : Nat
deriving Repr, DecidableEq

def initPair : PairStats := ⟨0, 0, 0, 0, 0⟩

def initStats : AllStats := ⟨⟨initPair, initPair⟩, ⟨initPair, initPair⟩⟩

/-- The stats update a terminal event applies to the counter record of its own pair. -/
def applyPair (e : TerminalEvent) (p : PairStats) : PairStats :=
  if e.success then statsOnSuccess p e.duration e.retryCount
  else statsOnFailure p e.retryCount

def updateGateway (ct : CallType) (f : PairStats → PairStats) (g : GatewayStats) : GatewayStats :=
  match ct with
  | CallType.llm => { g with llm := f g.llm }
  | CallType.image => { g with image := f g.image }

/-- The whole-state effect of one terminal outcome: exactly the update block at the
end of the success and failure paths of makeRequest. -/
def applyEvent (st : AllStats) (e : TerminalEvent) : AllStats :=
  match e.gatewayId with
  | GatewayId.gw1 => { st with g1 := updateGateway e.ctype (applyPair e) st.g1 }
  | GatewayId.gw2 => { st with g2 := updateGateway e.ctype (applyPair e) st.g2 }

/-- Folding the terminal outcomes of a run into the global stats, in the order the
invocations resolved; each update is applied atomically after a request resolves. -/
def runEvents : AllStats → List TerminalEvent → AllStats
  | st, [] => st
  | st, e :: es => runEvents (applyEvent st e) es

def pairOf (st : AllStats) : GatewayId → CallType → PairStats
  | GatewayId.gw1, CallType.llm => st.g1.llm
  | GatewayId.gw1, CallType.image => st.g1.image
  | GatewayId.gw2, CallType.llm => st.g2.llm
  | GatewayId.gw2, CallType.image => st.g2.image

/-- The terminal event that one finished invocation contributes to the stats. -/
def eventOfTrace (g : GatewayId) (ct : CallType) (tr : Trace) : TerminalEvent :=
  ⟨g, ct, tr.result.success, tr.result.duration, tr.result.retryCount⟩

/-- The terminal events of a given gateway and call type, in resolution order. -/
def eventsFor (g : GatewayId) (ct : CallType) (evs : List TerminalEvent) : List TerminalEvent :=
  evs.filter (fun e => decide (e.gatewayId = g) && decide (e.ctype = ct))

/-- Cumulative effect on one pair counter record of a list of its own terminal events. -/
def foldPair : PairStats → List TerminalEvent → PairStats
  | p, [] => p
  | p, e :: es => foldPair (applyPair e p) es

/-- The tasks the batch driver launches against one gateway when it is configured:
the image wave then the LLM wave, each of size n. -/
def tasksFor (present : Bool) (envs : Nat → AttemptEnv) (ie : ImageEnv)
    (base n clock : Nat) : List Trace :=
  if present then
    ((List.range n).map (fun i => makeRequest (envs (base + i)) ie true 3 2000 (i + 1) clock)) ++
    ((List.range n).map (fun i => makeRequest (envs (base + n + i)) ie false 3 2000 (i + 1) clock))
  else []

/-- main of src/scripts/livepeer/dualStressTest.ts: when both gateway URLs are empty
the process exits 1 on stderr before any request; a thrown prompt error is caught by
the closing catch and the process still exits 0 with no summary; otherwise all tasks
run, writeSummary runs and the process exits 0. -/
def main (gateway1Url gateway2Url : List Char) (promptsFile : Option (List Char))
    (envs : Nat → AttemptEnv) (ie : ImageEnv) (n clock : Nat) : MainOutcome :=
  if gateway1Url = [] ∧ gateway2Url = [] then
    ⟨1, 0, false, 0, 0,
      some ("At least one gateway URL must be specified (gateway1Url or gateway2Url).".data)⟩
  else
    match readImagePrompt promptsFile, readLLMPrompt promptsFile with
    | ParseResult.ok _, ParseResult.ok _ =>
      let t1 := tasksFor (decide (gateway1Url ≠ [])) envs ie 0 n clock
      let t2 := tasksFor (decide (gateway2Url ≠ [])) envs ie (2 * n) n clock
      let results := (t1 ++ t2).map (fun t => t.result)
      ⟨0, (t1 ++ t2).length, true,
        (results.filter (fun r => r.success)).length,
        (results.filter (fun r => !r.success)).length, none⟩
    | _, _ => ⟨0, 0, false, 0, 0, none⟩

end DualStress

namespace TestsImage

/-- RequestResult of the retry-free stress scripts under src/tests. -/
structure RequestResult where
  success : Bool
  duration : Int
deriving Repr, DecidableEq

/-- makeRequest of the retry-free image stress script under src/tests: one attempt,
any error is caught and recorded in the returned result, and both paths append one
log line. -/
def makeRequest (env : AttemptEnv) (requestNum clock : Nat) : RequestResult × LogEntry :=
  let startTime := clock
  let t1 := clock + env.attemptTime 0
  if env.fails 0 then
    (⟨false, (t1 : Int) - (startTime : Int)⟩,
      LogEntry.failLine requestNum 0 ((t1 : Int) - (startTime : Int)))
  else
    let t3 := t1 + 1000
    (⟨true, (t3 : Int) - (startTime : Int)⟩,
      LogEntry.okLine requestNum 0 ((t3 : Int) - (startTime : Int)))

def successCount (rs : List RequestResult) : Nat := (rs.filter (fun r => r.success)).length

def failureCount (rs : List RequestResult) : Nat := (rs.filter (fun r => !r.success)).length

/-- main of the retry-free image stress script under src/tests: missing gateway URL
exits 1 on stderr before any request; otherwise the batch runs, the summary is
appended and the process exits 0. -/
def main (gatewayUrl : Option (List Char)) (envs : Nat → AttemptEnv)
    (n clock : Nat) : MainOutcome :=
  match gatewayUrl with
  | none => ⟨1, 0, false, 0, 0, some ("LIVEPEER_GATEWAY_URL environment variable not set".data)⟩
  | some _ =>
    let results := (List.range n).map (fun i => (makeRequest (envs i) (i + 1) clock).1)
    ⟨0, n, true, successCount results, failureCount results, none⟩

end TestsImage

namespace TestsLLMRetry

/-- RequestResult of the retry-enabled LLM stress script under src/tests. -/
structure RequestResult where
  success : Bool
  duration : Int
  retries : Nat
deriving Repr, DecidableEq

/-- Observable trace of one makeRequest invocation of the retry-enabled LLM script. -/
structure Trace where
  result : RequestResult
  attempts : Nat
  fileLog : List LogEntry
  endTime : Nat
deriving Repr, DecidableEq

/-- Retry loop of makeRequest in the retry-enabled LLM stress script under src/tests.
The start time is taken once before the loop; the catch block measures the duration
from that start, and the attempt at the retry ceiling returns the failed result with
that measured duration. -/
def go (env : AttemptEnv) (maxRetries retryDelay requestNum startTime : Nat) :
    Nat → Nat → Nat → Trace
  | 0, rc, now => ⟨⟨false, (now : Int) - (startTime : Int), rc⟩, 0, [], now⟩
  | fuel + 1, rc, now =>
    let t1 := now + env.attemptTime rc
    if env.fails rc then
      let dur : Int := (t1 : Int) - (startTime : Int)
      if rc = maxRetries then
        ⟨⟨false, dur, rc⟩, 1, [LogEntry.failLine requestNum rc dur], t1⟩
      else
        let rest := go env maxRetries retryDelay requestNum startTime fuel (rc + 1) (t1 + retryDelay)
        { rest with attempts := rest.attempts + 1 }
    else
      let t3 := t1 + 1000
      let dur : Int := (t3 : Int) - (startTime : Int)
      ⟨⟨true, dur, rc⟩, 1, [LogEntry.okLine requestNum rc dur], t3⟩

/-- makeRequest of the retry-enabled LLM stress script under src/tests. -/
def makeRequest (env : AttemptEnv) (maxRetries retryDelay requestNum clock : Nat) : Trace :=
  go env maxRetries retryDelay requestNum clock (maxRetries + 1) 0 clock

/-- readPrompt of the retry-enabled LLM stress script under src/tests: the dotall
lazy capture stops at the earliest newline followed by optional whitespace and
img_prompt, or at the end of input. -/
def readPrompt (content : List Char) : ParseResult :=
  match afterFirst llmKeyEq content with
  | none => ParseResult.thrown ("Could not find llm_prompt in prompts file".data)
  | some rest => ParseResult.ok (trimChars (captureUntil imgKeyName rest))

end TestsLLMRetry

/-- Whether a log entry is a terminal success line. -/
def isTerminalOk : LogEntry → Bool
  | LogEntry.okLine _ _ _ => true
  | _ => false

theorem filter_length_add {α : Type} (l : List α) (p : α → Bool) :
    (l.filter p).length + (l.filter (fun a => !(p a))).length = l.length := by
  induction l with
  | nil => simp
  | cons a t ih =>
    cases h : p a <;> simp [List.filter_cons, h] <;> omega

theorem imageSideEffects_fst (q : Nat) (ie : ImageEnv) :
    ∀ m i now, (imageSideEffects q ie m i now).1 = now + imageTimeFrom ie m i := by
  intro m
  induction m with
  | zero => intro i now; simp [imageSideEffects, imageTimeFrom]
  | succ k ih =>
    intro i now
    simp only [imageSideEffects, imageTimeFrom, ih]
    omega

theorem imageSideEffects_mem_imgError (q : Nat) (ie : ImageEnv) :
    ∀ m i now j, j < m → ie.fetchFails (i + j) = true →
      LogEntry.imgError q (i + j + 1) ∈ (imageSideEffects q ie m i now).2 := by
  intro m
  induction m with
  | zero => intro i now j hj hf; omega
  | succ k ih =>
    intro i now j hj hf
    rcases j with _ | j1
    · simp only [Nat.add_zero] at hf
      simp [imageSideEffects, hf]
    · have h2 : ie.fetchFails (i + 1 + j1) = true := by
        rw [show i + 1 + j1 = i + (j1 + 1) by omega]; exact hf
      have hmem := ih (i + 1) (now + ie.fetchTime i) j1 (by omega) h2
      simp only [imageSideEffects]
      refine List.mem_cons_of_mem _ ?_
      rw [show i + (j1 + 1) + 1 = i + 1 + j1 + 1 by omega]
      exact hmem

theorem imageTimeFrom_congr (ie1 ie2 : ImageEnv) (h : ie1.fetchTime = ie2.fetchTime) :
    ∀ m i, imageTimeFrom ie1 m i = imageTimeFrom ie2 m i := by
  intro m
  induction m with
  | zero => intro i; simp [imageTimeFrom]
  | succ k ih => intro i; simp [imageTimeFrom, h, ih]

theorem matchesAt_append_drop :
    ∀ (key s : List Char), matchesAt key s = true → s = key ++ s.drop key.length := by
  intro key
  induction key with
  | nil => intro s _; simp
  | cons k ks ih =>
    intro s hp
    cases s with
    | nil => simp [matchesAt] at hp
    | cons c cs =>
      simp only [matchesAt, Bool.and_eq_true, beq_iff_eq] at hp
      obtain ⟨hk, hrest⟩ := hp
      subst hk
      simpa using ih cs hrest

theorem matchesAt_append_self :
    ∀ (key t : List Char), matchesAt key (key ++ t) = true := by
  intro key
  induction key with
  | nil => intro t; simp [matchesAt]
  | cons k ks ih => intro t; simp [matchesAt, ih]

theorem afterFirst_eq_none (key : List Char) :
    ∀ s : List Char, (∀ l₁ l₂ : List Char, s ≠ l₁ ++ key ++ l₂) → afterFirst key s = none := by
  intro s
  induction s with
  | nil =>
    intro h
    simp only [afterFirst]
    by_cases hk : key = []
    · exact absurd (by simp [hk]) (h [] [])
    · simp [hk]
  | cons c cs ih =>
    intro h
    simp only [afterFirst]
    by_cases hp : matchesAt key (c :: cs) = true
    · exact absurd (by simpa using matchesAt_append_drop key (c :: cs) hp) (h [] ((c :: cs).drop key.length))
    · simp only [hp]
      simp only [Bool.false_eq_true, if_false]
      exact ih (fun l₁ l₂ he => h (c :: l₁) l₂ (by simp [he]))

theorem afterFirst_none_no_occurrence (key : List Char) :
    ∀ s : List Char, afterFirst key s = none → ∀ l₁ l₂ : List Char, s ≠ l₁ ++ key ++ l₂ := by
  have main : ∀ l₁ l₂ : List Char, afterFirst key (l₁ ++ key ++ l₂) ≠ none := by
    intro l₁
    induction l₁ with
    | nil =>
      intro l₂
      cases hs : key ++ l₂ with
      | nil =>
        have hk : key = [] := by
          cases key with
          | nil => rfl
          | cons a b => simp at hs
        have hl : l₂ = [] := by
          rw [hk] at hs; simpa using hs
        simp [hk, hl, afterFirst]
      | cons c cs =>
        have hp : matchesAt key (c :: cs) = true := by
          rw [← hs]; exact matchesAt_append_self key l₂
        simp [afterFirst, hs, hp]
    | cons a t ih =>
      intro l₂
      simp only [List.cons_append, afterFirst, List.append_eq]
      by_cases hp : matchesAt key (a :: (t ++ key ++ l₂)) = true
      · rw [if_pos hp]
        simp
      · rw [if_neg hp]
        exact ih l₂
  intro s hnone l₁ l₂ he
  exact main l₁ l₂ (by rw [← he]; exact hnone)

theorem findKeyEq_eq_none (key : List Char) :
    ∀ s : List Char, (∀ l₁ l₂ : List Char, s ≠ l₁ ++ key ++ l₂) → findKeyEq key s = none := by
  intro s
  induction s with
  | nil => intro _; simp [findKeyEq]
  | cons c cs ih =>
    intro h
    simp only [findKeyEq]
    by_cases hp : matchesAt key (c :: cs) = true
    · exact absurd (by simpa using matchesAt_append_drop key (c :: cs) hp) (h [] ((c :: cs).drop key.length))
    · simp only [hp]
      simp only [Bool.false_eq_true, if_false]
      exact ih (fun l₁ l₂ he => h (c :: l₁) l₂ (by simp [he]))

theorem newline_not_mem_takeLine : ∀ s : List Char, '\n' ∉ takeLine s := by
  intro s
  induction s with
  | nil => simp [takeLine]
  | cons c cs ih =>
    simp only [takeLine]
    by_cases hc : c = '\n'
    · simp [hc]
    · simp only [hc, if_false, List.mem_cons]
      push_neg
      exact ⟨fun h => hc h.symm, ih⟩

theorem mem_of_mem_dropLeadingWs : ∀ (s : List Char) (a : Char), a ∈ dropLeadingWs s → a ∈ s := by
  intro s
  induction s with
  | nil => intro a ha; simp [dropLeadingWs] at ha
  | cons c cs ih =>
    intro a ha
    simp only [dropLeadingWs] at ha
    by_cases hc : isJsSpace c = true
    · simp only [hc, if_true] at ha
      exact List.mem_cons_of_mem _ (ih a ha)
    · simp only [hc] at ha
      simpa using ha

theorem mem_of_mem_trimChars (s : List Char) (a : Char) (ha : a ∈ trimChars s) : a ∈ s := by
  have h1 := mem_of_mem_dropLeadingWs ((dropLeadingWs s).reverse) a (by simpa [trimChars] using ha)
  have h2 : a ∈ dropLeadingWs s := by simpa using h1
  exact mem_of_mem_dropLeadingWs s a h2

theorem imgGo_allFail (env : AttemptEnv) (ie : ImageEnv) (r d q : Nat)
    (h : ∀ j, env.fails j = true) :
    ∀ fuel rc now, rc + fuel = r + 1 →
      (ImageStress.go env ie r d q fuel rc now).result = ⟨false, 0, r⟩ ∧
      (ImageStress.go env ie r d q fuel rc now).attempts = fuel := by
  intro fuel
  induction fuel with
  | zero =>
    intro rc now hrc
    have h1 : rc - 1 = r := by omega
    simp [ImageStress.go, h1]
  | succ f ih =>
    intro rc now hrc
    simp only [ImageStress.go]
    rw [if_pos (h rc)]
    by_cases hc : r < rc + 1
    · rw [if_pos hc]
      have h1 : rc + 1 - 1 = r := by omega
      have h2 : f = 0 := by omega
      subst h2
      simp [h1]
    · rw [if_neg hc]
      have hrec := ih (rc + 1) (now + env.attemptTime rc + d) (by omega)
      refine ⟨hrec.1, ?_⟩
      have := hrec.2
      simp only [ImageStress.Trace.attempts]
      omega

theorem dualGo_allFail (env : AttemptEnv) (ie : ImageEnv) (b : Bool) (r d q st : Nat)
    (h : ∀ j, env.fails j = true) :
    ∀ fuel rc now, rc + fuel = r + 1 → rc ≤ r →
      (DualStress.go env ie b r d q st fuel rc now).result = ⟨false, 0, r, none⟩ ∧
      (DualStress.go env ie b r d q st fuel rc now).attempts = fuel := by
  intro fuel
  induction fuel with
  | zero => intro rc now hrc hle; omega
  | succ f ih =>
    intro rc now hrc hle
    simp only [DualStress.go]
    rw [if_pos (h rc)]
    by_cases hc : r ≤ rc
    · rw [if_pos hc]
      have h2 : rc = r := by omega
      have h3 : f = 0 := by omega
      subst h2; subst h3
      simp
    · rw [if_neg hc]
      have hrec := ih (rc + 1) (now + env.attemptTime rc + d) (by omega) (by omega)
      refine ⟨hrec.1, ?_⟩
      simp only [DualStress.Trace.attempts]
      omega

theorem testsGo_allFail (env : AttemptEnv) (r d q st : Nat)
    (h : ∀ j, env.fails j = true) :
    ∀ fuel rc now, rc + fuel = r + 1 → rc ≤ r →
      (TestsLLMRetry.go env r d q st fuel rc now).result.success = false ∧
      (TestsLLMRetry.go env r d q st fuel rc now).result.retries = r ∧
      (TestsLLMRetry.go env r d q st fuel rc now).attempts = fuel := by
  intro fuel
  induction fuel with
  | zero => intro rc now hrc hle; omega
  | succ f ih =>
    intro rc now hrc hle
    simp only [TestsLLMRetry.go]
    rw [if_pos (h rc)]
    by_cases hc : rc = r
    · rw [if_pos hc]
      have h3 : f = 0 := by omega
      subst hc; subst h3
      simp
    · rw [if_neg hc]
      have hrec := ih (rc + 1) (now + env.attemptTime rc + d) (by omega) (by omega)
      refine ⟨hrec.1, hrec.2.1, ?_⟩
      simp only [TestsLLMRetry.Trace.attempts]
      omega

theorem imgGo_successAt (env : AttemptEnv) (ie : ImageEnv) (r d q k : Nat)
    (hk : ∀ j, j < k → env.fails j = true) (hs : env.fails k = false) (hkr : k ≤ r) :
    ∀ fuel rc now, rc + fuel = r + 1 → rc ≤ k →
      (ImageStress.go env ie r d q fuel rc now).result.success = true ∧
      (ImageStress.go env ie r d q fuel rc now).result.retryCount = k ∧
      (ImageStress.go env ie r d q fuel rc now).attempts = k - rc + 1 := by
  intro fuel
  induction fuel with
  | zero => intro rc now hrc hle; omega
  | succ f ih =>
    intro rc now hrc hle
    simp only [ImageStress.go]
    by_cases hck : rc = k
    · rw [if_neg (by simp [hck, hs])]
      subst hck
      simp
    · rw [if_pos (hk rc (by omega))]
      rw [if_neg (by omega)]
      have hrec := ih (rc + 1) (now + env.attemptTime rc + d) (by omega) (by omega)
      refine ⟨hrec.1, hrec.2.1, ?_⟩
      have := hrec.2.2
      simp only [ImageStress.Trace.attempts]
      omega

theorem dualGo_successAt (env : AttemptEnv) (ie : ImageEnv) (b : Bool) (r d q st k : Nat)
    (hk : ∀ j, j < k → env.fails j = true) (hs : env.fails k = false) (hkr : k ≤ r) :
    ∀ fuel rc now, rc + fuel = r + 1 → rc ≤ k →
      (DualStress.go env ie b r d q st fuel rc now).result.success = true ∧
      (DualStress.go env ie b r d q st fuel rc now).result.retryCount = k ∧
      (DualStress.go env ie b r d q st fuel rc now).attempts = k - rc + 1 := by
  intro fuel
  induction fuel with
  | zero => intro rc now hrc hle; omega
  | succ f ih =>
    intro rc now hrc hle
    simp only [DualStress.go]
    by_cases hck : rc = k
    · rw [if_neg (by simp [hck, hs])]
      subst hck
      simp
    · rw [if_pos (hk rc (by omega))]
      rw [if_neg (by omega)]
      have hrec := ih (rc + 1) (now + env.attemptTime rc + d) (by omega) (by omega)
      refine ⟨hrec.1, hrec.2.1, ?_⟩
      have := hrec.2.2
      simp only [DualStress.Trace.attempts]
      omega

theorem testsGo_successAt (env : AttemptEnv) (r d q st k : Nat)
    (hk : ∀ j, j < k → env.fails j = true) (hs : env.fails k = false) (hkr : k ≤ r) :
    ∀ fuel rc now, rc + fuel = r + 1 → rc ≤ k →
      (TestsLLMRetry.go env r d q st fuel rc now).result.success = true ∧
      (TestsLLMRetry.go env r d q st fuel rc now).result.retries = k ∧
      (TestsLLMRetry.go env r d q st fuel rc now).attempts = k - rc + 1 := by
  intro fuel
  induction fuel with
  | zero => intro rc now hrc hle; omega
  | succ f ih =>
    intro rc now hrc hle
    simp only [TestsLLMRetry.go]
    by_cases hck : rc = k
    · rw [if_neg (by simp [hck, hs])]
      subst hck
      simp
    · rw [if_pos (hk rc (by omega))]
      rw [if_neg (by omega)]
      have hrec := ih (rc + 1) (now + env.attemptTime rc + d) (by omega) (by omega)
      refine ⟨hrec.1, hrec.2.1, ?_⟩
      have := hrec.2.2
      simp only [TestsLLMRetry.Trace.attempts]
      omega

theorem imgGo_inv (env : AttemptEnv) (ie : ImageEnv) (r d q : Nat) :
    ∀ fuel rc now, rc + fuel = r + 1 → rc ≤ r →
      (ImageStress.go env ie r d q fuel rc now).result.retryCount ≤ r ∧
      0 ≤ (ImageStress.go env ie r d q fuel rc now).result.duration ∧
      (ImageStress.go env ie r d q fuel rc now).fileLog.length = 1 ∧
      ((ImageStress.go env ie r d q fuel rc now).fileLog.filter isTerminalOk).length =
        (if (ImageStress.go env ie r d q fuel rc now).result.success then 1 else 0) := by
  intro fuel
  induction fuel with
  | zero => intro rc now hrc hle; omega
  | succ f ih =>
    intro rc now hrc hle
    simp only [ImageStress.go]
    cases hfail : env.fails rc with
    | true =>
      rw [if_pos rfl]
      by_cases hc : r < rc + 1
      · rw [if_pos hc]
        refine ⟨by simp; omega, by simp, by simp, by simp [isTerminalOk]⟩
      · rw [if_neg hc]
        exact ih (rc + 1) (now + env.attemptTime rc + d) (by omega) (by omega)
    | false =>
      rw [if_neg (by simp)]
      refine ⟨by simpa using hle, ?_, by simp, by simp [isTerminalOk]⟩
      simp only [ImageStress.Trace.result]
      rw [imageSideEffects_fst]
      push_cast
      omega

theorem dualGo_inv (env : AttemptEnv) (ie : ImageEnv) (b : Bool) (r d q st : Nat) :
    ∀ fuel rc now, rc + fuel = r + 1 → rc ≤ r → st ≤ now →
      (DualStress.go env ie b r d q st fuel rc now).result.retryCount ≤ r ∧
      0 ≤ (DualStress.go env ie b r d q st fuel rc now).result.duration ∧
      (DualStress.go env ie b r d q st fuel rc now).fileLog.length = 1 ∧
      ((DualStress.go env ie b r d q st fuel rc now).fileLog.filter isTerminalOk).length =
        (if (DualStress.go env ie b r d q st fuel rc now).result.success then 1 else 0) := by
  intro fuel
  induction fuel with
  | zero => intro rc now hrc hle hst; omega
  | succ f ih =>
    intro rc now hrc hle hst
    simp only [DualStress.go]
    cases hfail : env.fails rc with
    | true =>
      rw [if_pos rfl]
      by_cases hc : r ≤ rc
      · rw [if_pos hc]
        refine ⟨by simpa using hle, by simp, by simp, by simp [isTerminalOk]⟩
      · rw [if_neg hc]
        exact ih (rc + 1) (now + env.attemptTime rc + d) (by omega) (by omega) (by omega)
    | false =>
      rw [if_neg (by simp)]
      refine ⟨by simpa using hle, ?_, by simp, by simp [isTerminalOk]⟩
      simp only [DualStress.Trace.result]
      cases b with
      | true =>
        rw [if_pos rfl, imageSideEffects_fst]
        push_cast
        omega
      | false =>
        rw [if_neg (by simp)]
        push_cast
        omega

theorem testsGo_inv (env : AttemptEnv) (r d q st : Nat) :
    ∀ fuel rc now, rc + fuel = r + 1 → rc ≤ r → st ≤ now →
      (TestsLLMRetry.go env r d q st fuel rc now).result.retries ≤ r ∧
      0 ≤ (TestsLLMRetry.go env r d q st fuel rc now).result.duration ∧
      (TestsLLMRetry.go env r d q st fuel rc now).fileLog.length = 1 ∧
      ((TestsLLMRetry.go env r d q st fuel rc now).fileLog.filter isTerminalOk).length =
        (if (TestsLLMRetry.go env r d q st fuel rc now).result.success then 1 else 0) := by
  intro fuel
  induction fuel with
  | zero => intro rc now hrc hle hst; omega
  | succ f ih =>
    intro rc now hrc hle hst
    simp only [TestsLLMRetry.go]
    cases hfail : env.fails rc with
    | true =>
      rw [if_pos rfl]
      by_cases hc : rc = r
      · rw [if_pos hc]
        refine ⟨by simpa using hle, ?_, by simp, by simp [isTerminalOk]⟩
        simp only [TestsLLMRetry.Trace.result]
        push_cast
        omega
      · rw [if_neg hc]
        exact ih (rc + 1) (now + env.attemptTime rc + d) (by omega) (by omega) (by omega)
    | false =>
      rw [if_neg (by simp)]
      refine ⟨by simpa using hle, ?_, by simp, by simp [isTerminalOk]⟩
      simp only [TestsLLMRetry.Trace.result]
      push_cast
      omega

theorem dualGo_success_duration (env : AttemptEnv) (ie : ImageEnv) (b : Bool) (r d q st : Nat) :
    ∀ fuel rc now, st + rc * d ≤ now →
      (DualStress.go env ie b r d q st fuel rc now).result.success = true →
      (DualStress.go env ie b r d q st fuel rc now).result.duration =
        ((DualStress.go env ie b r d q st fuel rc now).endTime : Int) - (st : Int) ∧
      (((DualStress.go env ie b r d q st fuel rc now).result.retryCount * d : Nat) : Int) ≤
        (DualStress.go env ie b r d q st fuel rc now).result.duration := by
  intro fuel
  induction fuel with
  | zero =>
    intro rc now hnow hsucc
    simp [DualStress.go] at hsucc
  | succ f ih =>
    intro rc now hnow hsucc
    simp only [DualStress.go] at hsucc ⊢
    cases hfail : env.fails rc with
    | true =>
      rw [hfail] at hsucc
      rw [if_pos rfl] at hsucc ⊢
      by_cases hc : r ≤ rc
      · rw [if_pos hc] at hsucc
        simp at hsucc
      · rw [if_neg hc] at hsucc ⊢
        refine ih (rc + 1) (now + env.attemptTime rc + d) ?_ hsucc
        have hmul : (rc + 1) * d = rc * d + d := by ring
        omega
    | false =>
      rw [hfail] at hsucc
      rw [if_neg (by simp)] at hsucc ⊢
      refine ⟨rfl, ?_⟩
      simp only [DualStress.Trace.result]
      cases b with
      | true =>
        rw [if_pos rfl, imageSideEffects_fst]
        push_cast
        omega
      | false =>
        rw [if_neg (by simp)]
        push_cast
        omega

theorem imgGo_success_duration (env : AttemptEnv) (ie : ImageEnv) (r d q : Nat) :
    ∀ fuel rc now,
      (ImageStress.go env ie r d q fuel rc now).result.success = true →
      (ImageStress.go env ie r d q fuel rc now).result.duration =
        ((env.attemptTime (ImageStress.go env ie r d q fuel rc now).result.retryCount
          + imageTimeFrom ie ie.numImages 0 + 1000 : Nat) : Int) := by
  intro fuel
  induction fuel with
  | zero =>
    intro rc now hsucc
    simp [ImageStress.go] at hsucc
  | succ f ih =>
    intro rc now hsucc
    simp only [ImageStress.go] at hsucc ⊢
    cases hfail : env.fails rc with
    | true =>
      rw [hfail] at hsucc
      rw [if_pos rfl] at hsucc ⊢
      by_cases hc : r < rc + 1
      · rw [if_pos hc] at hsucc
        simp at hsucc
      · rw [if_neg hc] at hsucc ⊢
        exact ih (rc + 1) (now + env.attemptTime rc + d) hsucc
    | false =>
      rw [hfail] at hsucc
      rw [if_neg (by simp)] at hsucc ⊢
      simp only [ImageStress.Trace.result]
      rw [imageSideEffects_fst]
      push_cast
      omega

theorem imgGo_fail_duration (env : AttemptEnv) (ie : ImageEnv) (r d q : Nat) :
    ∀ fuel rc now,
      (ImageStress.go env ie r d q fuel rc now).result.success = false →
      (ImageStress.go env ie r d q fuel rc now).result.duration = 0 := by
  intro fuel
  induction fuel with
  | zero => intro rc now _; simp [ImageStress.go]
  | succ f ih =>
    intro rc now hfailres
    simp only [ImageStress.go] at hfailres ⊢
    cases hfail : env.fails rc with
    | true =>
      rw [hfail] at hfailres
      rw [if_pos rfl] at hfailres ⊢
      by_cases hc : r < rc + 1
      · rw [if_pos hc]
      · rw [if_neg hc] at hfailres ⊢
        exact ih (rc + 1) (now + env.attemptTime rc + d) hfailres
    | false =>
      rw [hfail] at hfailres
      rw [if_neg (by simp)] at hfailres
      simp at hfailres

theorem dualGo_fail_duration (env : AttemptEnv) (ie : ImageEnv) (b : Bool) (r d q st : Nat) :
    ∀ fuel rc now,
      (DualStress.go env ie b r d q st fuel rc now).result.success = false →
      (DualStress.go env ie b r d q st fuel rc now).result.duration = 0 := by
  intro fuel
  induction fuel with
  | zero => intro rc now _; simp [DualStress.go]
  | succ f ih =>
    intro rc now hfailres
    simp only [DualStress.go] at hfailres ⊢
    cases hfail : env.fails rc with
    | true =>
      rw [hfail] at hfailres
      rw [if_pos rfl] at hfailres ⊢
      by_cases hc : r ≤ rc
      · rw [if_pos hc]
      · rw [if_neg hc] at hfailres ⊢
        exact ih (rc + 1) (now + env.attemptTime rc + d) hfailres
    | false =>
      rw [hfail] at hfailres
      rw [if_neg (by simp)] at hfailres
      simp at hfailres

theorem imgGo_ie_congr (env : AttemptEnv) (ie1 ie2 : ImageEnv) (r d q : Nat)
    (h1 : ie1.numImages = ie2.numImages) (h2 : ie1.fetchTime = ie2.fetchTime) :
    ∀ fuel rc now,
      (ImageStress.go env ie1 r d q fuel rc now).result =
      (ImageStress.go env ie2 r d q fuel rc now).result := by
  intro fuel
  induction fuel with
  | zero => intro rc now; simp [ImageStress.go]
  | succ f ih =>
    intro rc now
    simp only [ImageStress.go]
    cases hfail : env.fails rc with
    | true =>
      rw [if_pos rfl, if_pos rfl]
      by_cases hc : r < rc + 1
      · rw [if_pos hc, if_pos hc]
      · rw [if_neg hc, if_neg hc]
        exact ih (rc + 1) (now + env.attemptTime rc + d)
    | false =>
      rw [if_neg (by simp), if_neg (by simp)]
      simp only [ImageStress.Trace.result]
      rw [imageSideEffects_fst, imageSideEffects_fst,
        imageTimeFrom_congr ie1 ie2 h2 ie1.numImages 0, h1]

theorem dualGo_ie_congr (env : AttemptEnv) (ie1 ie2 : ImageEnv) (b : Bool) (r d q st : Nat)
    (h1 : ie1.numImages = ie2.numImages) (h2 : ie1.fetchTime = ie2.fetchTime) :
    ∀ fuel rc now,
      (DualStress.go env ie1 b r d q st fuel rc now).result =
      (DualStress.go env ie2 b r d q st fuel rc now).result := by
  intro fuel
  induction fuel with
  | zero => intro rc now; simp [DualStress.go]
  | succ f ih =>
    intro rc now
    simp only [DualStress.go]
    cases hfail : env.fails rc with
    | true =>
      rw [if_pos rfl, if_pos rfl]
      by_cases hc : r ≤ rc
      · rw [if_pos hc, if_pos hc]
      · rw [if_neg hc, if_neg hc]
        exact ih (rc + 1) (now + env.attemptTime rc + d)
    | false =>
      simp only [Bool.false_eq_true, if_false, DualStress.Trace.result]
      cases b with
      | true =>
        simp only [eq_self_iff_true, if_true]
        rw [imageSideEffects_fst, imageSideEffects_fst,
          imageTimeFrom_congr ie1 ie2 h2 ie1.numImages 0, h1]
      | false =>
        simp

theorem imgGo_imageLog_mem (env : AttemptEnv) (ie : ImageEnv) (r d q : Nat) :
    ∀ fuel rc now,
      (ImageStress.go env ie r d q fuel rc now).result.success = true →
      ∀ j, j < ie.numImages → ie.fetchFails j = true →
        LogEntry.imgError q (j + 1) ∈ (ImageStress.go env ie r d q fuel rc now).imageLog := by
  intro fuel
  induction fuel with
  | zero => intro rc now hsucc; simp [ImageStress.go] at hsucc
  | succ f ih =>
    intro rc now hsucc j hj hf
    simp only [ImageStress.go] at hsucc ⊢
    cases hfail : env.fails rc with
    | true =>
      rw [hfail] at hsucc
      rw [if_pos rfl] at hsucc ⊢
      by_cases hc : r < rc + 1
      · rw [if_pos hc] at hsucc
        simp at hsucc
      · rw [if_neg hc] at hsucc ⊢
        exact ih (rc + 1) (now + env.attemptTime rc + d) hsucc j hj hf
    | false =>
      rw [hfail] at hsucc
      rw [if_neg (by simp)]
      simp only [ImageStress.Trace.imageLog]
      simpa using imageSideEffects_mem_imgError q ie ie.numImages 0
        (now + env.attemptTime rc) j hj (by simpa using hf)

theorem dualGo_imageLog_mem (env : AttemptEnv) (ie : ImageEnv) (r d q st : Nat) :
    ∀ fuel rc now,
      (DualStress.go env ie true r d q st fuel rc now).result.success = true →
      ∀ j, j < ie.numImages → ie.fetchFails j = true →
        LogEntry.imgError q (j + 1) ∈ (DualStress.go env ie true r d q st fuel rc now).imageLog := by
  intro fuel
  induction fuel with
  | zero => intro rc now hsucc; simp [DualStress.go] at hsucc
  | succ f ih =>
    intro rc now hsucc j hj hf
    simp only [DualStress.go] at hsucc ⊢
    cases hfail : env.fails rc with
    | true =>
      rw [hfail] at hsucc
      rw [if_pos rfl] at hsucc ⊢
      by_cases hc : r ≤ rc
      · rw [if_pos hc] at hsucc
        simp at hsucc
      · rw [if_neg hc] at hsucc ⊢
        exact ih (rc + 1) (now + env.attemptTime rc + d) hsucc j hj hf
    | false =>
      rw [hfail] at hsucc
      rw [if_neg (by simp)]
      simp only [DualStress.Trace.imageLog]
      rw [if_pos trivial]
      simpa using imageSideEffects_mem_imgError q ie ie.numImages 0
        (now + env.attemptTime rc) j hj (by simpa using hf)

theorem pairOf_applyEvent_self (st : DualStress.AllStats) (e : DualStress.TerminalEvent) :
    DualStress.pairOf (DualStress.applyEvent st e) e.gatewayId e.ctype =
    DualStress.applyPair e (DualStress.pairOf st e.gatewayId e.ctype) := by
  cases hg : e.gatewayId <;> cases hc : e.ctype <;>
    simp [DualStress.applyEvent, DualStress.updateGateway, DualStress.pairOf, hg, hc]

theorem pairOf_applyEvent_other (st : DualStress.AllStats) (e : DualStress.TerminalEvent)
    (g : DualStress.GatewayId) (ct : DualStress.CallType)
    (h : e.gatewayId ≠ g ∨ e.ctype ≠ ct) :
    DualStress.pairOf (DualStress.applyEvent st e) g ct = DualStress.pairOf st g ct := by
  cases hg : e.gatewayId <;> cases hc : e.ctype <;> cases g <;> cases ct <;>
    simp_all [DualStress.applyEvent, DualStress.updateGateway, DualStress.pairOf]

theorem pairOf_runEvents (g : DualStress.GatewayId) (ct : DualStress.CallType) :
    ∀ (evs : List DualStress.TerminalEvent) (st : DualStress.AllStats),
      DualStress.pairOf (DualStress.runEvents st evs) g ct =
      DualStress.foldPair (DualStress.pairOf st g ct) (DualStress.eventsFor g ct evs) := by
  intro evs
  induction evs with
  | nil => intro st; simp [DualStress.runEvents, DualStress.eventsFor, DualStress.foldPair]
  | cons e es ih =>
    intro st
    simp only [DualStress.runEvents]
    by_cases hmatch : e.gatewayId = g ∧ e.ctype = ct
    · have hfil : DualStress.eventsFor g ct (e :: es) = e :: DualStress.eventsFor g ct es := by
        simp [DualStress.eventsFor, List.filter_cons, hmatch.1, hmatch.2]
      rw [ih (DualStress.applyEvent st e), hfil]
      simp only [DualStress.foldPair]
      obtain ⟨h1, h2⟩ := hmatch
      subst h1
      subst h2
      rw [pairOf_applyEvent_self]
    · have hfil : DualStress.eventsFor g ct (e :: es) = DualStress.eventsFor g ct es := by
        rcases not_and_or.mp hmatch with h | h <;> simp [DualStress.eventsFor, List.filter_cons, h]
      rw [ih (DualStress.applyEvent st e), hfil,
        pairOf_applyEvent_other st e g ct (not_and_or.mp hmatch)]

theorem applyPair_spec (e : DualStress.TerminalEvent) (p : DualStress.PairStats) :
    (DualStress.applyPair e p).requests = p.requests + 1 ∧
    (DualStress.applyPair e p).success + (DualStress.applyPair e p).failure =
      p.success + p.failure + 1 ∧
    (DualStress.applyPair e p).retries = p.retries + e.retryCount := by
  cases hs : e.success <;>
    by_cases hr : 0 < e.retryCount <;>
      simp [DualStress.applyPair, DualStress.statsOnSuccess, DualStress.statsOnFailure, hs, hr] <;>
        omega

theorem foldPair_requests :
    ∀ (l : List DualStress.TerminalEvent) (p : DualStress.PairStats),
      (DualStress.foldPair p l).requests = p.requests + l.length := by
  intro l
  induction l with
  | nil => intro p; simp [DualStress.foldPair]
  | cons e es ih =>
    intro p
    simp only [DualStress.foldPair]
    rw [ih]
    have := (applyPair_spec e p).1
    simp [this]
    omega

theorem foldPair_success_failure :
    ∀ (l : List DualStress.TerminalEvent) (p : DualStress.PairStats),
      (DualStress.foldPair p l).success + (DualStress.foldPair p l).failure =
        p.success + p.failure + l.length := by
  intro l
  induction l with
  | nil => intro p; simp [DualStress.foldPair]
  | cons e es ih =>
    intro p
    simp only [DualStress.foldPair]
    rw [ih]
    have := (applyPair_spec e p).2.1
    simp only [List.length_cons]
    omega

theorem foldPair_retries :
    ∀ (l : List DualStress.TerminalEvent) (p : DualStress.PairStats),
      (DualStress.foldPair p l).retries = p.retries + (l.map (fun e => e.retryCount)).sum := by
  intro l
  induction l with
  | nil => intro p; simp [DualStress.foldPair]
  | cons e es ih =>
    intro p
    simp only [DualStress.foldPair]
    rw [ih]
    have := (applyPair_spec e p).2.2
    simp only [List.map_cons, List.sum_cons]
    omega

/-- C2: for every retry ceiling r, an invocation of any of the three retry-enabled
makeRequest variants against an endpoint whose every attempt fails returns an outcome
with success false and retry count exactly r, after performing r + 1 attempts. -/
theorem c2_thm (env : AttemptEnv) (ie : ImageEnv) (b : Bool) (r d q c : Nat)
    (h : ∀ j, env.fails j = true) :
    ((ImageStress.makeRequest env ie r d q c).result = ⟨false, 0, r⟩ ∧
     (ImageStress.makeRequest env ie r d q c).attempts = r + 1) ∧
    ((DualStress.makeRequest env ie b r d q c).result = ⟨false, 0, r, none⟩ ∧
     (DualStress.makeRequest env ie b r d q c).attempts = r + 1) ∧
    ((TestsLLMRetry.makeRequest env r d q c).result.success = false ∧
     (TestsLLMRetry.makeRequest env r d q c).result.retries = r ∧
     (TestsLLMRetry.makeRequest env r d q c).attempts = r + 1) := by
  refine ⟨?_, ?_, ?_⟩
  · exact imgGo_allFail env ie r d q h (r + 1) 0 c (by omega)
  · exact dualGo_allFail env ie b r d q c h (r + 1) 0 c (by omega) (by omega)
  · exact testsGo_allFail env r d q c h (r + 1) 0 c (by omega) (by omega)

/-- Witness for C2 at a concrete always-failing endpoint with ceiling 3. -/
theorem c2_witness :
    ((ImageStress.makeRequest ⟨fun _ => true, fun _ => 5, fun _ => 200⟩
        ⟨0, fun _ => false, fun _ => 0⟩ 3 2000 1 0).result = ⟨false, 0, 3⟩ ∧
     (ImageStress.makeRequest ⟨fun _ => true, fun _ => 5, fun _ => 200⟩
        ⟨0, fun _ => false, fun _ => 0⟩ 3 2000 1 0).attempts = 3 + 1) ∧
    ((DualStress.makeRequest ⟨fun _ => true, fun _ => 5, fun _ => 200⟩
        ⟨0, fun _ => false, fun _ => 0⟩ true 3 2000 1 0).result = ⟨false, 0, 3, none⟩ ∧
     (DualStress.makeRequest ⟨fun _ => true, fun _ => 5, fun _ => 200⟩
        ⟨0, fun _ => false, fun _ => 0⟩ true 3 2000 1 0).attempts = 3 + 1) ∧
    ((TestsLLMRetry.makeRequest ⟨fun _ => true, fun _ => 5, fun _ => 200⟩ 3 2000 1 0).result.success
        = false ∧
     (TestsLLMRetry.makeRequest ⟨fun _ => true, fun _ => 5, fun _ => 200⟩ 3 2000 1 0).result.retries
        = 3 ∧
     (TestsLLMRetry.makeRequest ⟨fun _ => true, fun _ => 5, fun _ => 200⟩ 3 2000 1 0).attempts
        = 3 + 1) :=
  c2_thm ⟨fun _ => true, fun _ => 5, fun _ => 200⟩ ⟨0, fun _ => false, fun _ => 0⟩ true 3 2000 1 0
    (fun _ => rfl)

/-- C7: with a retry ceiling of 3, an endpoint that fails on the first two attempts
and succeeds on the third yields a successful outcome with retry count 2, for all
three retry-enabled makeRequest variants, whatever the attempt timings. -/
theorem c7_thm (t s : Nat → Nat) (ie : ImageEnv) (b : Bool) (d q c : Nat) :
    ((ImageStress.makeRequest ⟨fun i => decide (i < 2), t, s⟩ ie 3 d q c).result.success = true ∧
     (ImageStress.makeRequest ⟨fun i => decide (i < 2), t, s⟩ ie 3 d q c).result.retryCount = 2) ∧
    ((DualStress.makeRequest ⟨fun i => decide (i < 2), t, s⟩ ie b 3 d q c).result.success = true ∧
     (DualStress.makeRequest ⟨fun i => decide (i < 2), t, s⟩ ie b 3 d q c).result.retryCount = 2) ∧
    ((TestsLLMRetry.makeRequest ⟨fun i => decide (i < 2), t, s⟩ 3 d q c).result.success = true ∧
     (TestsLLMRetry.makeRequest ⟨fun i => decide (i < 2), t, s⟩ 3 d q c).result.retries = 2) := by
  have hk : ∀ j, j < 2 → (⟨fun i => decide (i < 2), t, s⟩ : AttemptEnv).fails j = true := by
    intro j hj
    exact decide_eq_true hj
  have hs : (⟨fun i => decide (i < 2), t, s⟩ : AttemptEnv).fails 2 = false := rfl
  refine ⟨?_, ?_, ?_⟩
  · have h := imgGo_successAt ⟨fun i => decide (i < 2), t, s⟩ ie 3 d q 2 hk hs (by omega)
      4 0 c (by omega) (by omega)
    exact ⟨h.1, h.2.1⟩
  · have h := dualGo_successAt ⟨fun i => decide (i < 2), t, s⟩ ie b 3 d q c 2 hk hs (by omega)
      4 0 c (by omega) (by omega)
    exact ⟨h.1, h.2.1⟩
  · have h := testsGo_successAt ⟨fun i => decide (i < 2), t, s⟩ 3 d q c 2 hk hs (by omega)
      4 0 c (by omega) (by omega)
    exact ⟨h.1, h.2.1⟩

/-- C9: every outcome of the three makeRequest variants satisfies the data model
invariants: retry count at most the ceiling, nonnegative duration, and exactly one
terminal log line per logical request, a success line exactly when the outcome
succeeded. -/
theorem c9_thm (env : AttemptEnv) (ie : ImageEnv) (b : Bool) (r d q c : Nat) :
    ((ImageStress.makeRequest env ie r d q c).result.retryCount ≤ r ∧
     0 ≤ (ImageStress.makeRequest env ie r d q c).result.duration ∧
     (ImageStress.makeRequest env ie r d q c).fileLog.length = 1 ∧
     ((ImageStress.makeRequest env ie r d q c).fileLog.filter isTerminalOk).length =
       (if (ImageStress.makeRequest env ie r d q c).result.success then 1 else 0)) ∧
    ((DualStress.makeRequest env ie b r d q c).result.retryCount ≤ r ∧
     0 ≤ (DualStress.makeRequest env ie b r d q c).result.duration ∧
     (DualStress.makeRequest env ie b r d q c).fileLog.length = 1 ∧
     ((DualStress.makeRequest env ie b r d q c).fileLog.filter isTerminalOk).length =
       (if (DualStress.makeRequest env ie b r d q c).result.success then 1 else 0)) ∧
    ((TestsLLMRetry.makeRequest env r d q c).result.retries ≤ r ∧
     0 ≤ (TestsLLMRetry.makeRequest env r d q c).result.duration ∧
     (TestsLLMRetry.makeRequest env r d q c).fileLog.length = 1 ∧
     ((TestsLLMRetry.makeRequest env r d q c).fileLog.filter isTerminalOk).length =
       (if (TestsLLMRetry.makeRequest env r d q c).result.success then 1 else 0)) := by
  refine ⟨?_, ?_, ?_⟩
  · exact imgGo_inv env ie r d q (r + 1) 0 c (by omega) (by omega)
  · exact dualGo_inv env ie b r d q c (r + 1) 0 c (by omega) (by omega) (by omega)
  · exact testsGo_inv env r d q c (r + 1) 0 c (by omega) (by omega) (by omega)

/-- C1 counterexample: in the single-gateway image script, a request that fails once
and then succeeds, with a 2000 ms retry delay and instantaneous attempts, resolves
with a reported duration of 1000 ms, which is smaller than the one retry delay that
was actually incurred; and in the dual-gateway script a permanently failing request
that resolves 6020 ms after the first attempt started carries duration zero in its
returned outcome. Both contradict the claim that the returned duration spans from
the first attempt start to final resolution and dominates the incurred delays. -/
theorem c1_counterexample :
    (ImageStress.makeRequest ⟨fun i => decide (i = 0), fun _ => 0, fun _ => 200⟩
        ⟨0, fun _ => false, fun _ => 0⟩ 3 2000 1 0).result.success = true ∧
    (ImageStress.makeRequest ⟨fun i => decide (i = 0), fun _ => 0, fun _ => 200⟩
        ⟨0, fun _ => false, fun _ => 0⟩ 3 2000 1 0).result.retryCount = 1 ∧
    (ImageStress.makeRequest ⟨fun i => decide (i = 0), fun _ => 0, fun _ => 200⟩
        ⟨0, fun _ => false, fun _ => 0⟩ 3 2000 1 0).result.duration = 1000 ∧
    ¬((1 * 2000 : Int) ≤
      (ImageStress.makeRequest ⟨fun i => decide (i = 0), fun _ => 0, fun _ => 200⟩
        ⟨0, fun _ => false, fun _ => 0⟩ 3 2000 1 0).result.duration) ∧
    (DualStress.makeRequest ⟨fun _ => true, fun _ => 5, fun _ => 200⟩
        ⟨0, fun _ => false, fun _ => 0⟩ true 3 2000 1 0).result.success = false ∧
    (DualStress.makeRequest ⟨fun _ => true, fun _ => 5, fun _ => 200⟩
        ⟨0, fun _ => false, fun _ => 0⟩ true 3 2000 1 0).endTime = 6020 ∧
    (DualStress.makeRequest ⟨fun _ => true, fun _ => 5, fun _ => 200⟩
        ⟨0, fun _ => false, fun _ => 0⟩ true 3 2000 1 0).result.duration = 0 := by
  decide

/-- C1 amended: only the dual-gateway variant measures a successful outcome from the
start of the first attempt to final resolution, so there the duration equals the end
time minus the batch launch clock and dominates the retry delays incurred; in the
single-gateway image variant a successful duration covers only the final attempt,
its image side effects and the fixed one second pause; and in both variants a finally
failed outcome carries the literal duration zero. -/
theorem c1_amended_thm (env : AttemptEnv) (ie : ImageEnv) (b : Bool) (r d q c : Nat) :
    ((DualStress.makeRequest env ie b r d q c).result.success = true →
      (DualStress.makeRequest env ie b r d q c).result.duration =
        ((DualStress.makeRequest env ie b r d q c).endTime : Int) - (c : Int) ∧
      (((DualStress.makeRequest env ie b r d q c).result.retryCount * d : Nat) : Int) ≤
        (DualStress.makeRequest env ie b r d q c).result.duration) ∧
    ((ImageStress.makeRequest env ie r d q c).result.success = true →
      (ImageStress.makeRequest env ie r d q c).result.duration =
        ((env.attemptTime (ImageStress.makeRequest env ie r d q c).result.retryCount
          + imageTimeFrom ie ie.numImages 0 + 1000 : Nat) : Int)) ∧
    ((DualStress.makeRequest env ie b r d q c).result.success = false →
      (DualStress.makeRequest env ie b r d q c).result.duration = 0) ∧
    ((ImageStress.makeRequest env ie r d q c).result.success = false →
      (ImageStress.makeRequest env ie r d q c).result.duration = 0) := by
  refine ⟨?_, ?_, ?_, ?_⟩
  · exact dualGo_success_duration env ie b r d q c (r + 1) 0 c (by omega)
  · exact imgGo_success_duration env ie r d q (r + 1) 0 c
  · exact dualGo_fail_duration env ie b r d q c (r + 1) 0 c
  · exact imgGo_fail_duration env ie r d q (r + 1) 0 c

/-- Witness for the amended C1: a dual-gateway request succeeding on the third
attempt has a duration that spans from the launch clock and exceeds the two retry
delays it incurred, and a permanently failing single-gateway image request carries
duration zero. -/
theorem c1_amended_witness :
    ((DualStress.makeRequest ⟨fun i => decide (i < 2), fun _ => 5, fun _ => 200⟩
        ⟨0, fun _ => false, fun _ => 0⟩ true 3 2000 1 0).result.duration =
      ((DualStress.makeRequest ⟨fun i => decide (i < 2), fun _ => 5, fun _ => 200⟩
        ⟨0, fun _ => false, fun _ => 0⟩ true 3 2000 1 0).endTime : Int) - ((0 : Nat) : Int) ∧
     (((DualStress.makeRequest ⟨fun i => decide (i < 2), fun _ => 5, fun _ => 200⟩
        ⟨0, fun _ => false, fun _ => 0⟩ true 3 2000 1 0).result.retryCount * 2000 : Nat) : Int) ≤
      (DualStress.makeRequest ⟨fun i => decide (i < 2), fun _ => 5, fun _ => 200⟩
        ⟨0, fun _ => false, fun _ => 0⟩ true 3 2000 1 0).result.duration) ∧
    (ImageStress.makeRequest ⟨fun _ => true, fun _ => 5, fun _ => 200⟩
        ⟨0, fun _ => false, fun _ => 0⟩ 3 2000 1 0).result.duration = 0 :=
  ⟨(c1_amended_thm ⟨fun i => decide (i < 2), fun _ => 5, fun _ => 200⟩
      ⟨0, fun _ => false, fun _ => 0⟩ true 3 2000 1 0).1 (by decide),
   (c1_amended_thm ⟨fun _ => true, fun _ => 5, fun _ => 200⟩
      ⟨0, fun _ => false, fun _ => 0⟩ true 3 2000 1 0).2.2.2 (by decide)⟩

theorem filter_length_zero {α : Type} (l : List α) (p : α → Bool)
    (h : ∀ a ∈ l, p a = false) : (l.filter p).length = 0 := by
  induction l with
  | nil => simp
  | cons a t ih =>
    have ha := h a (by simp)
    simp only [List.filter_cons, ha]
    simp only [Bool.false_eq_true, if_false]
    exact ih (fun x hx => h x (by simp [hx]))

/-- C3: for every batch, the summary counts computed after all invocations settle
satisfy successes plus failures equals the number of requests, both for the image
script batch and for the retry-free tests batch, and at the level of both main entry
points the summary counts always add up to the number of requests issued. -/
theorem c3_thm (envs : Nat → AttemptEnv) (ies : Nat → ImageEnv) (r d n c : Nat) :
    (ImageStress.successCount ((ImageStress.runBatch envs ies r d n c).map (fun t => t.result)) +
     ImageStress.failureCount ((ImageStress.runBatch envs ies r d n c).map (fun t => t.result)) =
       n) ∧
    (TestsImage.successCount
        ((List.range n).map (fun i => (TestsImage.makeRequest (envs i) (i + 1) c).1)) +
     TestsImage.failureCount
        ((List.range n).map (fun i => (TestsImage.makeRequest (envs i) (i + 1) c).1)) = n) ∧
    (∀ (g : Option (List Char)) (pf : List Char),
      (ImageStress.main g pf envs ies n d c).successes +
        (ImageStress.main g pf envs ies n d c).failures =
      (ImageStress.main g pf envs ies n d c).requestsIssued) ∧
    (∀ g : Option (List Char),
      (TestsImage.main g envs n c).successes + (TestsImage.main g envs n c).failures =
      (TestsImage.main g envs n c).requestsIssued) := by
  have himg : ∀ rs : List ImageStress.RequestResult,
      ImageStress.successCount rs + ImageStress.failureCount rs = rs.length := by
    intro rs
    exact filter_length_add rs (fun x => x.success)
  have htests : ∀ rs : List TestsImage.RequestResult,
      TestsImage.successCount rs + TestsImage.failureCount rs = rs.length := by
    intro rs
    exact filter_length_add rs (fun x => x.success)
  refine ⟨?_, ?_, ?_, ?_⟩
  · rw [himg]
    simp [ImageStress.runBatch]
  · rw [htests]
    simp
  · intro g pf
    cases g with
    | none => simp [ImageStress.main]
    | some u =>
      cases hp : ImageStress.readPrompt pf with
      | thrown m => simp [ImageStress.main, hp]
      | ok v =>
        simp only [ImageStress.main, hp]
        rw [himg]
        simp [ImageStress.runBatch]
  · intro g
    cases g with
    | none => simp [TestsImage.main]
    | some u =>
      simp only [TestsImage.main]
      rw [htests]
      simp

/-- C4: against endpoints whose every attempt fails, every invocation in the image
script batch still resolves to a captured failed outcome with its one terminal log
line, the batch driver aggregates them into a summary with zero successes and all
failures, and a dual-gateway invocation likewise resolves to a captured failure. -/
theorem c4_thm (envs : Nat → AttemptEnv) (ies : Nat → ImageEnv) (env1 : AttemptEnv)
    (ie : ImageEnv) (b : Bool) (r d n q c : Nat)
    (hall : ∀ i j, (envs i).fails j = true) (h1 : ∀ j, env1.fails j = true) :
    (∀ tr ∈ ImageStress.runBatch envs ies r d n c,
      tr.result.success = false ∧ tr.fileLog.length = 1) ∧
    ImageStress.successCount ((ImageStress.runBatch envs ies r d n c).map (fun t => t.result))
      = 0 ∧
    ImageStress.failureCount ((ImageStress.runBatch envs ies r d n c).map (fun t => t.result))
      = n ∧
    ((DualStress.makeRequest env1 ie b r d q c).result.success = false ∧
     (DualStress.makeRequest env1 ie b r d q c).fileLog.length = 1) := by
  have hone : ∀ tr ∈ ImageStress.runBatch envs ies r d n c,
      tr.result.success = false ∧ tr.fileLog.length = 1 := by
    intro tr htr
    simp only [ImageStress.runBatch, List.mem_map, List.mem_range] at htr
    obtain ⟨i, hi, rfl⟩ := htr
    constructor
    · have h := (imgGo_allFail (envs i) (ies i) r d (i + 1) (hall i) (r + 1) 0 c (by omega)).1
      simp only [ImageStress.makeRequest]
      rw [h]
    · exact (imgGo_inv (envs i) (ies i) r d (i + 1) (r + 1) 0 c (by omega) (by omega)).2.2.1
  have hzero : ImageStress.successCount
      ((ImageStress.runBatch envs ies r d n c).map (fun t => t.result)) = 0 := by
    apply filter_length_zero
    intro a ha
    simp only [List.mem_map] at ha
    obtain ⟨tr, htr, rfl⟩ := ha
    exact (hone tr htr).1
  refine ⟨hone, hzero, ?_, ?_⟩
  · have hadd := filter_length_add
      ((ImageStress.runBatch envs ies r d n c).map (fun t => t.result)) (fun x => x.success)
    have hlen : ((ImageStress.runBatch envs ies r d n c).map
        (fun t => t.result)).length = n := by
      simp [ImageStress.runBatch]
    simp only [ImageStress.successCount] at hzero
    simp only [ImageStress.failureCount]
    omega
  · constructor
    · have h := (dualGo_allFail env1 ie b r d q c h1 (r + 1) 0 c (by omega) (by omega)).1
      simp only [DualStress.makeRequest]
      rw [h]
    · exact (dualGo_inv env1 ie b r d q c (r + 1) 0 c (by omega) (by omega) (by omega)).2.2.1

/-- Witness for C4 at a concrete batch of two permanently failing requests. -/
theorem c4_witness :
    ImageStress.successCount
      ((ImageStress.runBatch (fun _ => ⟨fun _ => true, fun _ => 0, fun _ => 200⟩)
          (fun _ => ⟨0, fun _ => false, fun _ => 0⟩) 3 2000 2 0).map (fun t => t.result)) = 0 ∧
    ImageStress.failureCount
      ((ImageStress.runBatch (fun _ => ⟨fun _ => true, fun _ => 0, fun _ => 200⟩)
          (fun _ => ⟨0, fun _ => false, fun _ => 0⟩) 3 2000 2 0).map (fun t => t.result)) = 2 ∧
    (DualStress.makeRequest ⟨fun _ => true, fun _ => 0, fun _ => 200⟩
        ⟨0, fun _ => false, fun _ => 0⟩ true 3 2000 1 0).result.success = false := by
  have h := c4_thm (fun _ => ⟨fun _ => true, fun _ => 0, fun _ => 200⟩)
    (fun _ => ⟨0, fun _ => false, fun _ => 0⟩) ⟨fun _ => true, fun _ => 0, fun _ => 200⟩
    ⟨0, fun _ => false, fun _ => 0⟩ true 3 2000 2 1 0 (fun _ _ => rfl) (fun _ => rfl)
  exact ⟨h.2.1, h.2.2.1, h.2.2.2.1⟩

/-- C5: with the gateway URL configuration absent each entry point reports the
configuration error on stderr and exits 1 with no request issued and no summary;
with a gateway URL present (and readable prompts where the script needs them) the
batch runs, the summary is written and the process exits 0, for every endpoint
behavior including entirely failing ones. -/
theorem c5_thm (envs : Nat → AttemptEnv) (ies : Nat → ImageEnv) (ie : ImageEnv)
    (n d c : Nat) (pf : Option (List Char)) (pfi : List Char) (g1 g2 : List Char) :
    (TestsImage.main none envs n c =
      ⟨1, 0, false, 0, 0, some ("LIVEPEER_GATEWAY_URL environment variable not set".data)⟩) ∧
    (∀ u : List Char,
      (TestsImage.main (some u) envs n c).exitCode = 0 ∧
      (TestsImage.main (some u) envs n c).summaryWritten = true ∧
      (TestsImage.main (some u) envs n c).requestsIssued = n) ∧
    (ImageStress.main none pfi envs ies n d c =
      ⟨1, 0, false, 0, 0, some ("LIVEPEER_GATEWAY_URL environment variable not set".data)⟩) ∧
    (DualStress.main [] [] pf envs ie n c =
      ⟨1, 0, false, 0, 0,
        some ("At least one gateway URL must be specified (gateway1Url or gateway2Url).".data)⟩) ∧
    ((g1 ≠ [] ∨ g2 ≠ []) →
      (∃ v, DualStress.readImagePrompt pf = ParseResult.ok v) →
      (∃ w, DualStress.readLLMPrompt pf = ParseResult.ok w) →
      (DualStress.main g1 g2 pf envs ie n c).exitCode = 0 ∧
      (DualStress.main g1 g2 pf envs ie n c).summaryWritten = true) ∧
    (∀ u : List Char,
      (∃ v, ImageStress.readPrompt pfi = ParseResult.ok v) →
      (ImageStress.main (some u) pfi envs ies n d c).exitCode = 0 ∧
      (ImageStress.main (some u) pfi envs ies n d c).summaryWritten = true ∧
      (ImageStress.main (some u) pfi envs ies n d c).requestsIssued = n) := by
  refine ⟨rfl, ?_, rfl, rfl, ?_, ?_⟩
  · intro u
    refine ⟨rfl, rfl, rfl⟩
  · intro hne hv hw
    obtain ⟨v, hv⟩ := hv
    obtain ⟨w, hw⟩ := hw
    have hcond : ¬(g1 = [] ∧ g2 = []) := by
      rcases hne with h | h
      · exact fun hc => h hc.1
      · exact fun hc => h hc.2
    simp [DualStress.main, hcond, hv, hw]
  · intro u hv
    obtain ⟨v, hv⟩ := hv
    simp [ImageStress.main, hv]

/-- Witness for C5 at a concrete configuration: a present gateway URL with a valid
prompts file exits 0 with the summary written, both for the dual-gateway script and
the single-gateway scripts. -/
theorem c5_witness :
    ((DualStress.main ("http://gw".data) [] (some ("llm_prompt=X\nimg_prompt=Y".data))
        (fun _ => ⟨fun _ => true, fun _ => 0, fun _ => 200⟩)
        ⟨0, fun _ => false, fun _ => 0⟩ 1 0).exitCode = 0 ∧
     (DualStress.main ("http://gw".data) [] (some ("llm_prompt=X\nimg_prompt=Y".data))
        (fun _ => ⟨fun _ => true, fun _ => 0, fun _ => 200⟩)
        ⟨0, fun _ => false, fun _ => 0⟩ 1 0).summaryWritten = true) ∧
    ((ImageStress.main (some ("http://gw".data)) ("img_prompt=Y".data)
        (fun _ => ⟨fun _ => true, fun _ => 0, fun _ => 200⟩)
        (fun _ => ⟨0, fun _ => false, fun _ => 0⟩) 2 2000 0).exitCode = 0 ∧
     (ImageStress.main (some ("http://gw".data)) ("img_prompt=Y".data)
        (fun _ => ⟨fun _ => true, fun _ => 0, fun _ => 200⟩)
        (fun _ => ⟨0, fun _ => false, fun _ => 0⟩) 2 2000 0).summaryWritten = true ∧
     (ImageStress.main (some ("http://gw".data)) ("img_prompt=Y".data)
        (fun _ => ⟨fun _ => true, fun _ => 0, fun _ => 200⟩)
        (fun _ => ⟨0, fun _ => false, fun _ => 0⟩) 2 2000 0).requestsIssued = 2) := by
  have h := c5_thm (fun _ => ⟨fun _ => true, fun _ => 0, fun _ => 200⟩)
    (fun _ => ⟨0, fun _ => false, fun _ => 0⟩) ⟨0, fun _ => false, fun _ => 0⟩
    1 2000 0 (some ("llm_prompt=X\nimg_prompt=Y".data)) ("img_prompt=Y".data)
    ("http://gw".data) []
  have h2 := c5_thm (fun _ => ⟨fun _ => true, fun _ => 0, fun _ => 200⟩)
    (fun _ => ⟨0, fun _ => false, fun _ => 0⟩) ⟨0, fun _ => false, fun _ => 0⟩
    2 2000 0 (some ("llm_prompt=X\nimg_prompt=Y".data)) ("img_prompt=Y".data)
    ("http://gw".data) []
  exact ⟨h.2.2.2.2.1 (Or.inl (by decide)) ⟨"Y".data, by decide⟩ ⟨"X".data, by decide⟩,
    h2.2.2.2.2.2 ("http://gw".data) ⟨"Y".data, by decide⟩⟩

/-- C6 counterexample: on the file content img_prompt=A then a new line with
llm_prompt=B, the readPrompt of the single-gateway image script extracts a value
that runs past the end of the line and past the other recognized key llm_prompt=,
all the way to the end of the file, contradicting the claim that every extracted
value runs to end of line or until the next key. -/
theorem c6_counterexample :
    ImageStress.readPrompt ("img_prompt=A\nllm_prompt=B".data) =
      ParseResult.ok ("A\nllm_prompt=B".data) ∧
    '\n' ∈ "A\nllm_prompt=B".data ∧
    (∃ l₁ l₂ : List Char, "A\nllm_prompt=B".data = l₁ ++ llmKeyEq ++ l₂) := by
  refine ⟨by decide, by decide, "A\n".data, "B".data, by decide⟩

/-- C6 amended: the four prompt readers recognize only the keys llm_prompt and
img_prompt and each throws its named error when the requested key never occurs in
the content (or the file is missing, for the dual-gateway readers); the value
extents differ per reader: the dual-gateway image value stays within one line, the
dual-gateway and tests LLM values run until the next img_prompt key or the end of
input, while the single-gateway image script takes everything after img_prompt= to
the end of the file. -/
theorem c6_amended_thm (s : List Char) :
    ((∀ l₁ l₂ : List Char, s ≠ l₁ ++ imgKeyEq ++ l₂) →
      ImageStress.readPrompt s =
        ParseResult.thrown ("Could not find img_prompt in prompts file".data)) ∧
    ((∀ l₁ l₂ : List Char, s ≠ l₁ ++ llmKeyEq ++ l₂) →
      TestsLLMRetry.readPrompt s =
        ParseResult.thrown ("Could not find llm_prompt in prompts file".data)) ∧
    ((∀ l₁ l₂ : List Char, s ≠ l₁ ++ imgKeyName ++ l₂) →
      DualStress.readImagePrompt (some s) =
        ParseResult.thrown ("Could not find img_prompt in prompts file".data)) ∧
    ((∀ l₁ l₂ : List Char, s ≠ l₁ ++ llmKeyName ++ l₂) →
      DualStress.readLLMPrompt (some s) =
        ParseResult.thrown ("Could not find llm_prompt in prompts file".data)) ∧
    (DualStress.readImagePrompt none =
      ParseResult.thrown ("Could not find prompts file for image prompt".data)) ∧
    (∀ v, DualStress.readImagePrompt (some s) = ParseResult.ok v → '\n' ∉ v) ∧
    (DualStress.readImagePrompt (some ("img_prompt=A\nllm_prompt=B".data)) =
      ParseResult.ok ("A".data)) ∧
    (DualStress.readLLMPrompt (some ("llm_prompt=X\nimg_prompt=Y".data)) =
      ParseResult.ok ("X".data)) ∧
    (TestsLLMRetry.readPrompt ("llm_prompt=X\nimg_prompt=Y".data) =
      ParseResult.ok ("X".data)) := by
  refine ⟨?_, ?_, ?_, ?_, rfl, ?_, by decide, by decide, by decide⟩
  · intro h
    simp [ImageStress.readPrompt, afterFirst_eq_none imgKeyEq s h]
  · intro h
    simp [TestsLLMRetry.readPrompt, afterFirst_eq_none llmKeyEq s h]
  · intro h
    simp [DualStress.readImagePrompt, findKeyEq_eq_none imgKeyName s h]
  · intro h
    simp [DualStress.readLLMPrompt, findKeyEq_eq_none llmKeyName s h]
  · intro v hv
    simp only [DualStress.readImagePrompt] at hv
    cases hk : findKeyEq imgKeyName s with
    | none => rw [hk] at hv; simp at hv
    | some rest =>
      rw [hk] at hv
      simp only [ParseResult.ok.injEq] at hv
      subst hv
      intro hmem
      have h1 := mem_of_mem_trimChars _ _ hmem
      exact newline_not_mem_takeLine _ h1

/-- Witness for the amended C6: a content without either key makes all four readers
throw their named errors. -/
theorem c6_amended_witness :
    ImageStress.readPrompt ("hello".data) =
      ParseResult.thrown ("Could not find img_prompt in prompts file".data) ∧
    TestsLLMRetry.readPrompt ("hello".data) =
      ParseResult.thrown ("Could not find llm_prompt in prompts file".data) ∧
    DualStress.readImagePrompt (some ("hello".data)) =
      ParseResult.thrown ("Could not find img_prompt in prompts file".data) ∧
    DualStress.readLLMPrompt (some ("hello".data)) =
      ParseResult.thrown ("Could not find llm_prompt in prompts file".data) := by
  have h := c6_amended_thm ("hello".data)
  exact ⟨h.1 (afterFirst_none_no_occurrence imgKeyEq ("hello".data) (by decide)),
    h.2.1 (afterFirst_none_no_occurrence llmKeyEq ("hello".data) (by decide)),
    h.2.2.1 (afterFirst_none_no_occurrence imgKeyName ("hello".data) (by decide)),
    h.2.2.2.1 (afterFirst_none_no_occurrence llmKeyName ("hello".data) (by decide))⟩

/-- C8: the returned outcome of an image request does not depend on whether the
derived-image fetches fail, in either script; and when the request succeeded, every
failed fetch is recorded in the console log while the outcome stays successful. -/
theorem c8_thm (env : AttemptEnv) (ie1 ie2 : ImageEnv) (b : Bool) (r d q c : Nat)
    (h1 : ie1.numImages = ie2.numImages) (h2 : ie1.fetchTime = ie2.fetchTime) :
    (ImageStress.makeRequest env ie1 r d q c).result =
      (ImageStress.makeRequest env ie2 r d q c).result ∧
    (DualStress.makeRequest env ie1 b r d q c).result =
      (DualStress.makeRequest env ie2 b r d q c).result ∧
    ((ImageStress.makeRequest env ie1 r d q c).result.success = true →
      ∀ j, j < ie1.numImages → ie1.fetchFails j = true →
        LogEntry.imgError q (j + 1) ∈ (ImageStress.makeRequest env ie1 r d q c).imageLog) ∧
    ((DualStress.makeRequest env ie1 true r d q c).result.success = true →
      ∀ j, j < ie1.numImages → ie1.fetchFails j = true →
        LogEntry.imgError q (j + 1) ∈ (DualStress.makeRequest env ie1 true r d q c).imageLog) := by
  refine ⟨?_, ?_, ?_, ?_⟩
  · exact imgGo_ie_congr env ie1 ie2 r d q h1 h2 (r + 1) 0 c
  · exact dualGo_ie_congr env ie1 ie2 b r d q c h1 h2 (r + 1) 0 c
  · exact imgGo_imageLog_mem env ie1 r d q (r + 1) 0 c
  · exact dualGo_imageLog_mem env ie1 r d q c (r + 1) 0 c

/-- Witness for C8: with one referenced image whose fetch fails, the outcome equals
the outcome with a succeeding fetch, and the failed fetch is recorded. -/
theorem c8_witness :
    (ImageStress.makeRequest ⟨fun _ => false, fun _ => 3, fun _ => 200⟩
        ⟨1, fun _ => true, fun _ => 7⟩ 3 2000 1 0).result =
      (ImageStress.makeRequest ⟨fun _ => false, fun _ => 3, fun _ => 200⟩
        ⟨1, fun _ => false, fun _ => 7⟩ 3 2000 1 0).result ∧
    LogEntry.imgError 1 1 ∈
      (ImageStress.makeRequest ⟨fun _ => false, fun _ => 3, fun _ => 200⟩
        ⟨1, fun _ => true, fun _ => 7⟩ 3 2000 1 0).imageLog := by
  have h := c8_thm ⟨fun _ => false, fun _ => 3, fun _ => 200⟩
    ⟨1, fun _ => true, fun _ => 7⟩ ⟨1, fun _ => false, fun _ => 7⟩ true 3 2000 1 0 rfl rfl
  exact ⟨h.1, h.2.2.1 (by decide) 0 (by decide) rfl⟩

/-- C10: folding the terminal outcomes of a dual-gateway run into the global stats
from their zero initialization gives, for every gateway and call type pair, a
requests counter equal to the number of terminal outcomes of that pair, counts with
success plus failure equal to requests, and retries equal to the sum of the retry
counts of that pair, while an outcome of a different pair leaves a pair counter
record unchanged. -/
theorem c10_thm (evs : List DualStress.TerminalEvent)
    (g : DualStress.GatewayId) (ct : DualStress.CallType) :
    (DualStress.pairOf (DualStress.runEvents DualStress.initStats evs) g ct).requests =
      (DualStress.eventsFor g ct evs).length ∧
    (DualStress.pairOf (DualStress.runEvents DualStress.initStats evs) g ct).success +
      (DualStress.pairOf (DualStress.runEvents DualStress.initStats evs) g ct).failure =
      (DualStress.pairOf (DualStress.runEvents DualStress.initStats evs) g ct).requests ∧
    (DualStress.pairOf (DualStress.runEvents DualStress.initStats evs) g ct).retries =
      ((DualStress.eventsFor g ct evs).map (fun e => e.retryCount)).sum ∧
    (∀ (st : DualStress.AllStats) (e : DualStress.TerminalEvent),
      e.gatewayId ≠ g ∨ e.ctype ≠ ct →
      DualStress.pairOf (DualStress.applyEvent st e) g ct = DualStress.pairOf st g ct) := by
  have hinit : DualStress.pairOf DualStress.initStats g ct = DualStress.initPair := by
    cases g <;> cases ct <;> rfl
  have hrun := pairOf_runEvents g ct evs DualStress.initStats
  rw [hinit] at hrun
  have hr := foldPair_requests (DualStress.eventsFor g ct evs) DualStress.initPair
  have hsf := foldPair_success_failure (DualStress.eventsFor g ct evs) DualStress.initPair
  have hret := foldPair_retries (DualStress.eventsFor g ct evs) DualStress.initPair
  refine ⟨?_, ?_, ?_, fun st e h => pairOf_applyEvent_other st e g ct h⟩
  · rw [hrun, hr]
    simp [DualStress.initPair]
  · rw [hrun]
    have hs0 : DualStress.initPair.success = 0 := rfl
    have hf0 : DualStress.initPair.failure = 0 := rfl
    have hq0 : DualStress.initPair.requests = 0 := rfl
    omega
  · rw [hrun, hret]
    simp [DualStress.initPair]

/-- Witness for C10 at a concrete pair of terminal outcomes on different pairs. -/
theorem c10_witness :
    (DualStress.pairOf (DualStress.runEvents DualStress.initStats
        [⟨DualStress.GatewayId.gw1, DualStress.CallType.llm, true, 5, 2⟩,
         ⟨DualStress.GatewayId.gw2, DualStress.CallType.image, false, 0, 3⟩])
      DualStress.GatewayId.gw1 DualStress.CallType.llm).requests =
      (DualStress.eventsFor DualStress.GatewayId.gw1 DualStress.CallType.llm
        [⟨DualStress.GatewayId.gw1, DualStress.CallType.llm, true, 5, 2⟩,
         ⟨DualStress.GatewayId.gw2, DualStress.CallType.image, false, 0, 3⟩]).length ∧
    (DualStress.pairOf (DualStress.runEvents DualStress.initStats
        [⟨DualStress.GatewayId.gw1, DualStress.CallType.llm, true, 5, 2⟩,
         ⟨DualStress.GatewayId.gw2, DualStress.CallType.image, false, 0, 3⟩])
      DualStress.GatewayId.gw1 DualStress.CallType.llm).retries = 2 ∧
    DualStress.pairOf (DualStress.applyEvent DualStress.initStats
        ⟨DualStress.GatewayId.gw2, DualStress.CallType.image, false, 0, 3⟩)
      DualStress.GatewayId.gw1 DualStress.CallType.llm =
      DualStress.pairOf DualStress.initStats
        DualStress.GatewayId.gw1 DualStress.CallType.llm := by
  have h := c10_thm
    [⟨DualStress.GatewayId.gw1, DualStress.CallType.llm, true, 5, 2⟩,
     ⟨DualStress.GatewayId.gw2, DualStress.CallType.image, false, 0, 3⟩]
    DualStress.GatewayId.gw1 DualStress.CallType.llm
  refine ⟨h.1, ?_, h.2.2.2 DualStress.initStats
    ⟨DualStress.GatewayId.gw2, DualStress.CallType.image, false, 0, 3⟩ (Or.inl (by decide))⟩
  rw [h.2.2.1]
  decide
